import Mathlib

/-!
Verification development for the tuneflip feed-composition engine.

The JavaScript sources are shallowly embedded: JS strings become `String`
(character-list based), JS objects become structures, missing/`undefined`
string fields are represented by `""` when the code only ever reads them
through `x || ""` (falsy coalescing), and by `Option String` where the code
distinguishes nullish from empty (`??`).  Machine arithmetic is `Nat`/`Int`
with explicit `% 2^32` where JS coerces to 32 bits.  Fallible code returns
`Except`.  JS object reference identity is made explicit by an `oid` field
where the code compares references (`Array.prototype.includes` on objects).
-/

/-! ## JS string primitives -/

/-- Case-sensitive list equality test used for JS `String.prototype.startsWith`. -/
def charsPrefixOf : List Char → List Char → Bool
  | [], _ => true
  | _ :: _, [] => false
  | a :: as, b :: bs => decide (a = b) && charsPrefixOf as bs

/-- JS `String.prototype.includes` on character lists: `needle` occurs
contiguously inside the second list. -/
def charsContains (needle : List Char) : List Char → Bool
  | [] => charsPrefixOf needle []
  | b :: bs => charsPrefixOf needle (b :: bs) || charsContains needle bs

/-- JS `hay.includes(needle)`. -/
def jsIncludes (hay needle : String) : Bool := charsContains needle.data hay.data

/-- JS `hay.startsWith(needle)`. -/
def jsStartsWith (hay needle : String) : Bool := charsPrefixOf needle.data hay.data

/-- JS `String.prototype.toLowerCase` (ASCII case mapping, which is what the
sources rely on). -/
def jsLower (s : String) : String := ⟨s.data.map Char.toLower⟩

/-- Strip leading and trailing whitespace from a character list. -/
def trimChars (cs : List Char) : List Char :=
  ((cs.dropWhile Char.isWhitespace).reverse.dropWhile Char.isWhitespace).reverse

/-- JS `String.prototype.trim`. -/
def jsTrim (s : String) : String := ⟨trimChars s.data⟩

/-- JS `arr.slice(-n)`.  For `n = 0` JS computes `slice(0)`, the whole array;
for `n > 0` it is the suffix of length `min n arr.length`. -/
def jsSliceLast (l : List α) (n : Nat) : List α :=
  if n = 0 then l else l.drop (l.length - n)

/-- Helper for `jsTokens`: scan the characters, collecting the current token
in reverse in `acc` and emitting it at each whitespace boundary. -/
def tokensAux : List Char → List Char → List String
  | [], acc => if acc.isEmpty then [] else [⟨acc.reverse⟩]
  | c :: cs, acc =>
    if c.isWhitespace then
      if acc.isEmpty then tokensAux cs [] else (⟨acc.reverse⟩ : String) :: tokensAux cs []
    else tokensAux cs (c :: acc)

/-- JS `/\s+/` split followed by `.filter(Boolean)`: whitespace-separated
nonempty tokens. -/
def jsTokens (s : String) : List String := tokensAux s.data []

/-! ## App.js revision (`src/App.js`)

`diversify` and `biasAndDiversify`, from src/App.js lines 60–97. -/

namespace App

/-- A track as consumed by `App.js`'s `diversify`: only `it.artist` is read
(`(it.artist || '')`, so a missing artist is the empty string).  `oid` models
JS object reference identity, used by `result.includes(it)` in the fill pass:
distinct array entries are distinct objects. -/
structure ATrack where
  oid : Nat
  artist : String
deriving DecidableEq

/-- `(it.artist || '').trim().toLowerCase()` — the artist key used by
`diversify` and `biasAndDiversify`. -/
def aKey (t : ATrack) : String := jsLower (jsTrim t.artist)

/-- `result.slice(-cooldown).some(r => (r.artist || '').trim().toLowerCase() === a)` -/
def tooSoon (a : String) (cooldown : Nat) (result : List ATrack) : Bool :=
  (jsSliceLast result cooldown).any (fun r => decide (aKey r = a))

/-- First pass of `diversify` (src/App.js lines 61–72): per-artist cap and
trailing cooldown window, stopping once `target` accepted.  The `counts` map
is threaded explicitly (the JS `Map` keyed by artist). -/
def diversifyPass1 (maxPerArtist cooldown target : Nat) :
    List ATrack → List ATrack → (String → Nat) → List ATrack × (String → Nat)
  | [], result, counts => (result, counts)
  | it :: rest, result, counts =>
    let a := aKey it
    let c := counts a
    if maxPerArtist ≤ c then diversifyPass1 maxPerArtist cooldown target rest result counts
    else if tooSoon a cooldown result then
      diversifyPass1 maxPerArtist cooldown target rest result counts
    else
      let result' := result ++ [it]
      let counts' := fun x => if x = a then c + 1 else counts x
      if target ≤ result'.length then (result', counts')
      else diversifyPass1 maxPerArtist cooldown target rest result' counts'

/-- Second, relaxed pass of `diversify` (src/App.js lines 73–83): original
order, skipping items already accepted (JS reference membership
`result.includes(it)`), applying only the per-artist cap. -/
def diversifyPass2 (maxPerArtist target : Nat) :
    List ATrack → List ATrack → (String → Nat) → List ATrack
  | [], result, _ => result
  | it :: rest, result, counts =>
    if it ∈ result then diversifyPass2 maxPerArtist target rest result counts
    else
      let a := aKey it
      let c := counts a
      if maxPerArtist ≤ c then diversifyPass2 maxPerArtist target rest result counts
      else
        let result' := result ++ [it]
        let counts' := fun x => if x = a then c + 1 else counts x
        if target ≤ result'.length then result'
        else diversifyPass2 maxPerArtist target rest result' counts'

/-- `diversify(items, { maxPerArtist, cooldown, target })`, src/App.js
lines 60–85. -/
def diversify (items : List ATrack) (maxPerArtist cooldown target : Nat) : List ATrack :=
  let p1 := diversifyPass1 maxPerArtist cooldown target items [] (fun _ => 0)
  if p1.1.length < target then diversifyPass2 maxPerArtist target items p1.1 p1.2
  else p1.1

/-- Number of entries of `l` whose normalized artist key is `a`. -/
def keyCount (a : String) (l : List ATrack) : Nat :=
  (l.filter (fun t => decide (aKey t = a))).length

end App

namespace App

theorem keyCount_append (a : String) (l : List ATrack) (it : ATrack) :
    keyCount a (l ++ [it]) = keyCount a l + (if aKey it = a then 1 else 0) := by
  by_cases h : aKey it = a <;> simp [keyCount, List.filter_append, h]

theorem counts_update_inv (it : ATrack) (result : List ATrack) (counts : String → Nat)
    (hinv : ∀ a, counts a = keyCount a result) :
    ∀ a, (fun x => if x = aKey it then counts (aKey it) + 1 else counts x) a
        = keyCount a (result ++ [it]) := by
  intro a
  by_cases h : a = aKey it
  · simp [h, keyCount_append, hinv (aKey it)]
  · have h' : ¬ aKey it = a := fun hh => h hh.symm
    simp [h, keyCount_append, hinv a, h']

theorem counts_update_le (m : Nat) (it : ATrack) (counts : String → Nat)
    (hle : ∀ a, counts a ≤ m) (hc : ¬ m ≤ counts (aKey it)) :
    ∀ a, (fun x => if x = aKey it then counts (aKey it) + 1 else counts x) a ≤ m := by
  intro a
  by_cases h : a = aKey it <;> simp [h]
  · omega
  · exact hle a

theorem diversifyPass1_inv (m cd tg : Nat) (items : List ATrack) :
    ∀ (result : List ATrack) (counts : String → Nat),
      (∀ a, counts a = keyCount a result) → (∀ a, counts a ≤ m) →
      (∀ a, (diversifyPass1 m cd tg items result counts).2 a
            = keyCount a (diversifyPass1 m cd tg items result counts).1)
        ∧ ∀ a, (diversifyPass1 m cd tg items result counts).2 a ≤ m := by
  induction items with
  | nil => intro result counts hinv hle; exact ⟨hinv, hle⟩
  | cons it rest ih =>
    intro result counts hinv hle
    simp only [diversifyPass1]
    split_ifs with h1 h2 h3
    · exact ih result counts hinv hle
    · exact ih result counts hinv hle
    · exact ⟨counts_update_inv it result counts hinv, counts_update_le m it counts hle h1⟩
    · exact ih (result ++ [it]) _ (counts_update_inv it result counts hinv)
        (counts_update_le m it counts hle h1)

theorem diversifyPass2_cap (m tg : Nat) (items : List ATrack) :
    ∀ (result : List ATrack) (counts : String → Nat),
      (∀ a, counts a = keyCount a result) → (∀ a, counts a ≤ m) →
      ∀ a, keyCount a (diversifyPass2 m tg items result counts) ≤ m := by
  induction items with
  | nil =>
    intro result counts hinv hle a
    simp only [diversifyPass2]
    rw [← hinv a]; exact hle a
  | cons it rest ih =>
    intro result counts hinv hle
    simp only [diversifyPass2]
    split_ifs with h1 h2 h3
    · exact ih result counts hinv hle
    · exact ih result counts hinv hle
    · intro a
      rw [← counts_update_inv it result counts hinv a]
      exact counts_update_le m it counts hle h2 a
    · exact ih (result ++ [it]) _ (counts_update_inv it result counts hinv)
        (counts_update_le m it counts hle h2)

theorem diversifyPass1_len (m cd tg : Nat) (items : List ATrack) :
    ∀ (result : List ATrack) (counts : String → Nat), result.length < tg →
      (diversifyPass1 m cd tg items result counts).1.length ≤ tg := by
  induction items with
  | nil => intro result counts h; exact Nat.le_of_lt h
  | cons it rest ih =>
    intro result counts h
    simp only [diversifyPass1]
    split_ifs with h1 h2 h3
    · exact ih result counts h
    · exact ih result counts h
    · simp only [List.length_append, List.length_cons, List.length_nil]; omega
    · refine ih (result ++ [it]) _ ?_
      simp only [List.length_append, List.length_cons, List.length_nil] at h3 ⊢
      omega

theorem diversifyPass2_len (m tg : Nat) (items : List ATrack) :
    ∀ (result : List ATrack) (counts : String → Nat), result.length < tg →
      (diversifyPass2 m tg items result counts).length ≤ tg := by
  induction items with
  | nil => intro result counts h; exact Nat.le_of_lt h
  | cons it rest ih =>
    intro result counts h
    simp only [diversifyPass2]
    split_ifs with h1 h2 h3
    · exact ih result counts h
    · exact ih result counts h
    · simp only [List.length_append, List.length_cons, List.length_nil]; omega
    · refine ih (result ++ [it]) _ ?_
      simp only [List.length_append, List.length_cons, List.length_nil] at h3 ⊢
      omega

theorem diversify_cap (items : List ATrack) (m cd tg : Nat) :
    ∀ a, keyCount a (diversify items m cd tg) ≤ m := by
  obtain ⟨hinv1, hle1⟩ := diversifyPass1_inv m cd tg items [] (fun _ => 0)
    (fun a => by simp [keyCount]) (fun a => Nat.zero_le m)
  intro a
  simp only [diversify]
  split_ifs with h
  · exact diversifyPass2_cap m tg items _ _ hinv1 hle1 a
  · rw [← hinv1 a]; exact hle1 a

theorem diversify_len (items : List ATrack) (m cd tg : Nat) (htg : 1 ≤ tg) :
    (diversify items m cd tg).length ≤ tg := by
  simp only [diversify]
  split_ifs with h
  · exact diversifyPass2_len m tg items _ _ h
  · exact diversifyPass1_len m cd tg items [] (fun _ => 0) htg

end App

/-- C1 (amended: the length bound requires `target ≥ 1`; with `target = 0` the
first pass still accepts one item before testing the stop condition, see the
counterexample).  For every input sequence and parameters with `target ≥ 1`:
in the output of `diversify` no artist key (trimmed, lower-cased) appears more
than `maxPerArtist` times, and the output length is at most `target`. -/
theorem C1_diversify_invariant (items : List App.ATrack)
    (maxPerArtist cooldown target : Nat) (htg : 1 ≤ target) :
    (∀ a : String,
        App.keyCount a (App.diversify items maxPerArtist cooldown target) ≤ maxPerArtist)
      ∧ (App.diversify items maxPerArtist cooldown target).length ≤ target :=
  ⟨App.diversify_cap items maxPerArtist cooldown target,
   App.diversify_len items maxPerArtist cooldown target htg⟩

/-- Witness for C1: concrete instantiation, hypotheses discharged. -/
theorem C1_diversify_invariant_witness :
    App.keyCount "a" (App.diversify [⟨0, " A "⟩, ⟨1, "a"⟩, ⟨2, "B"⟩] 1 3 2) ≤ 1
      ∧ (App.diversify [⟨0, " A "⟩, ⟨1, "a"⟩, ⟨2, "B"⟩] 1 3 2).length ≤ 2 :=
  ⟨(C1_diversify_invariant [⟨0, " A "⟩, ⟨1, "a"⟩, ⟨2, "B"⟩] 1 3 2 (by decide)).1 "a",
   (C1_diversify_invariant [⟨0, " A "⟩, ⟨1, "a"⟩, ⟨2, "B"⟩] 1 3 2 (by decide)).2⟩

/-- C1 fails as literally stated ("every target"): with `target = 0`,
`maxPerArtist = 1`, `cooldown = 3` and a single-element input, `diversify`
returns one item, so its length exceeds `target`. -/
theorem C1_counterexample :
    ¬ ((App.diversify [⟨0, "A"⟩] 1 3 0).length ≤ 0) := by decide

/-- C3 fails as stated: on artists A, A, A, B, C with `maxPerArtist = 2`,
`cooldown = 3`, `target = 5` the output is not A, A, B, C — the first pass
yields A, B, C and the relaxed fill pass appends the second A at the end. -/
theorem C3_counterexample :
    App.diversify [⟨0, "A"⟩, ⟨1, "A"⟩, ⟨2, "A"⟩, ⟨3, "B"⟩, ⟨4, "C"⟩] 2 3 5
      ≠ [⟨0, "A"⟩, ⟨1, "A"⟩, ⟨3, "B"⟩, ⟨4, "C"⟩] := by decide

/-- C3 (amended): on that input `diversify` returns the tracks with artists
A, B, C, A, in that order (first, fourth, fifth, then the second input track). -/
theorem C3_diversify_concrete :
    App.diversify [⟨0, "A"⟩, ⟨1, "A"⟩, ⟨2, "A"⟩, ⟨3, "B"⟩, ⟨4, "C"⟩] 2 3 5
        = [⟨0, "A"⟩, ⟨3, "B"⟩, ⟨4, "C"⟩, ⟨1, "A"⟩]
      ∧ (App.diversify [⟨0, "A"⟩, ⟨1, "A"⟩, ⟨2, "A"⟩, ⟨3, "B"⟩, ⟨4, "C"⟩] 2 3 5).map
          App.ATrack.artist = ["A", "B", "C", "A"] := by
  exact ⟨by decide, by decide⟩

namespace App

/-- Preference score, src/App.js lines 88–94: start from `0`, add `2` if the
normalized artist is in `likedArtists`, then subtract `2` if it is in
`dislikedArtists` (both adjustments can fire). -/
def biasScore (likedArtists dislikedArtists : List String) (it : ATrack) : Int :=
  let a := aKey it
  let s0 : Int := 0
  let s1 := if a ∈ likedArtists then s0 + 2 else s0
  if a ∈ dislikedArtists then s1 - 2 else s1

/-- The order induced by the comparator `(a, b) => b.score - a.score`:
`u` may come no later than `v` exactly when `u`'s score is at least `v`'s. -/
def scoreGE (u v : ATrack × Int) : Prop := v.2 ≤ u.2

instance : DecidableRel scoreGE := fun u v => inferInstanceAs (Decidable (v.2 ≤ u.2))

instance : IsTotal (ATrack × Int) scoreGE := ⟨fun u v => le_total v.2 u.2⟩

instance : IsTrans (ATrack × Int) scoreGE := ⟨fun _ _ _ h1 h2 => le_trans h2 h1⟩

/-- `scored.sort((a, b) => b.score - a.score)` — ECMAScript requires
`Array.prototype.sort` to be stable, so the embedding is the stable
(insertion) sort by descending score. -/
def sortByScoreDesc (l : List (ATrack × Int)) : List (ATrack × Int) :=
  l.insertionSort scoreGE

/-- `biasAndDiversify(items, { likedArtists, dislikedArtists, target })`,
src/App.js lines 87–97: score, stable-sort descending, then
`diversify(..., { maxPerArtist: 2, cooldown: 3, target })`. -/
def biasAndDiversify (items : List ATrack) (likedArtists dislikedArtists : List String)
    (target : Nat) : List ATrack :=
  let scored := items.map (fun it => (it, biasScore likedArtists dislikedArtists it))
  diversify ((sortByScoreDesc scored).map Prod.fst) 2 3 target

theorem filter_score_orderedInsert (x : ATrack × Int) (s : Int) (m : List (ATrack × Int)) :
    (m.orderedInsert scoreGE x).filter (fun u => decide (u.2 = s))
      = if x.2 = s then x :: m.filter (fun u => decide (u.2 = s))
        else m.filter (fun u => decide (u.2 = s)) := by
  induction m with
  | nil => by_cases h : x.2 = s <;> simp [List.orderedInsert, h]
  | cons b m ih =>
    simp only [List.orderedInsert]
    by_cases hr : scoreGE x b
    · rw [if_pos hr]
      by_cases h : x.2 = s <;> simp [List.filter_cons, h]
    · rw [if_neg hr]
      by_cases h : x.2 = s
      · have hb : ¬ (b.2 = s) := by
          intro hbs
          exact hr (le_of_eq (by rw [hbs, h]))
        simp [List.filter_cons, hb, ih, h]
      · by_cases hb : b.2 = s <;> simp [List.filter_cons, hb, ih, h]

theorem filter_score_sortByScoreDesc (s : Int) (l : List (ATrack × Int)) :
    (sortByScoreDesc l).filter (fun u => decide (u.2 = s))
      = l.filter (fun u => decide (u.2 = s)) := by
  induction l with
  | nil => rfl
  | cons x l ih =>
    simp only [sortByScoreDesc, List.insertionSort] at *
    rw [filter_score_orderedInsert, List.filter_cons]
    by_cases h : x.2 = s <;> simp [h, ih]

end App

/-- C6: `biasAndDiversify` scores `+2` for a normalized artist in
`likedArtists` (and not in `dislikedArtists`), `−2` for one in
`dislikedArtists` (and not in `likedArtists`), `0` for one in neither; the
scored list is reordered into a permutation that is sorted by descending
score and in which entries of equal score keep their relative input order
(stable sort); the result is `diversify` of that reordered sequence with
`maxPerArtist = 2`, `cooldown = 3`; hence no artist key occurs more than
2 (= `maxPerArtist`) times in the output. -/
theorem C6_biasAndDiversify_spec (items : List App.ATrack)
    (likedArtists dislikedArtists : List String) (target : Nat) :
    (∀ it : App.ATrack,
        (App.aKey it ∈ likedArtists ∧ App.aKey it ∉ dislikedArtists →
          App.biasScore likedArtists dislikedArtists it = 2)
      ∧ (App.aKey it ∈ dislikedArtists ∧ App.aKey it ∉ likedArtists →
          App.biasScore likedArtists dislikedArtists it = -2)
      ∧ (App.aKey it ∉ likedArtists ∧ App.aKey it ∉ dislikedArtists →
          App.biasScore likedArtists dislikedArtists it = 0))
    ∧ ((App.sortByScoreDesc
          (items.map (fun it => (it, App.biasScore likedArtists dislikedArtists it)))).Perm
        (items.map (fun it => (it, App.biasScore likedArtists dislikedArtists it)))
      ∧ (App.sortByScoreDesc
          (items.map (fun it => (it, App.biasScore likedArtists dislikedArtists it)))).Sorted
            App.scoreGE
      ∧ (∀ s : Int,
          (App.sortByScoreDesc
            (items.map (fun it => (it, App.biasScore likedArtists dislikedArtists it)))).filter
              (fun u => decide (u.2 = s))
          = (items.map (fun it => (it, App.biasScore likedArtists dislikedArtists it))).filter
              (fun u => decide (u.2 = s)))
      ∧ App.biasAndDiversify items likedArtists dislikedArtists target
          = App.diversify
              ((App.sortByScoreDesc
                (items.map (fun it => (it, App.biasScore likedArtists dislikedArtists it)))).map
                Prod.fst) 2 3 target)
    ∧ (∀ a : String,
        App.keyCount a (App.biasAndDiversify items likedArtists dislikedArtists target) ≤ 2) := by
  refine ⟨?_, ⟨?_, ?_, ?_, rfl⟩, ?_⟩
  · intro it
    refine ⟨?_, ?_, ?_⟩ <;> rintro ⟨h1, h2⟩ <;> simp [App.biasScore, h1, h2]
  · exact List.perm_insertionSort App.scoreGE _
  · exact List.sorted_insertionSort App.scoreGE _
  · intro s
    exact App.filter_score_sortByScoreDesc s _
  · intro a
    exact App.diversify_cap _ 2 3 target a

/-- Witness for C6: concrete scoring and cap instances. -/
theorem C6_biasAndDiversify_spec_witness :
    App.biasScore ["a"] [] ⟨0, "A"⟩ = 2
      ∧ App.keyCount "a"
          (App.biasAndDiversify [⟨0, "A"⟩, ⟨1, "a"⟩, ⟨2, "a "⟩] ["a"] [] 20) ≤ 2 :=
  ⟨((C6_biasAndDiversify_spec [⟨0, "A"⟩, ⟨1, "a"⟩, ⟨2, "a "⟩] ["a"] [] 20).1
      ⟨0, "A"⟩).1 ⟨by decide, by decide⟩,
   (C6_biasAndDiversify_spec [⟨0, "A"⟩, ⟨1, "a"⟩, ⟨2, "a "⟩] ["a"] [] 20).2.2 "a"⟩

/-! ## part_000 revision (`src/unnamed/part_000`, second revision, lines 1394+)

Constants from lines 1395–1410, `normalizeTrack`/`diversify` from 1440–1469,
fetching from 1510–1573, search scoring from 1576–1602, and the filter
pipeline from 2272–2314. -/

namespace Core

def PAGE : Nat := 20

def GENRE_FALLBACK : Nat := 21

def ARTIST_COOLDOWN : Nat := 3

def PER_ARTIST_CAP : Nat := 2

/-- `KARAOKE_PATTERNS` (src/unnamed/part_000 lines 1407–1410).  Each of the six
regexes (`/karaoke/i`, `/instrumental(?: version)?/i`, `/tribute/i`,
`/backing track/i`, `/as made famous by/i`, `/originally performed/i`) matches
a string exactly when the listed stem occurs in it case-insensitively — the
optional `(?: version)?` group never affects whether a match exists. -/
def KARAOKE_PATTERNS : List String :=
  ["karaoke", "instrumental", "tribute", "backing track",
   "as made famous by", "originally performed"]

/-- The canonical track shape produced by `normalizeTrack`
(src/unnamed/part_000 lines 1446–1459).  All fields are strings; a falsy
(missing/empty) field is `""`. -/
structure Track where
  id : String
  title : String
  artist : String
  album : String
  artwork : String
  previewUrl : String
  storeUrl : String
  genreName : String
deriving DecidableEq

/-- `trackKey` (line 1435): `t?.id || `${t?.title}|${t?.artist}|${t?.album}``. -/
def trackKey (t : Track) : String :=
  if t.id = "" then t.title ++ "|" ++ t.artist ++ "|" ++ t.album else t.id

/-- `isKaraoke` (lines 2272–2275): some karaoke pattern matches
`${title} ${album} ${artist}` case-insensitively (modelled by lowercasing the
blob; the patterns are lower-case). -/
def isKaraoke (t : Track) : Bool :=
  let blob := t.title ++ " " ++ t.album ++ " " ++ t.artist
  KARAOKE_PATTERNS.any (fun p => jsIncludes (jsLower blob) p)

/-- The mutable refs read by the filter pipeline, made explicit:
`dislikedPersistentRef` (a set of track keys), `likedDatesRef` and
`playedDatesRef` (maps from track key to timestamp), `cutoffRef`, and
`genreNameByIdRef` (map from stringified genre id to genre name). -/
structure FilterEnv where
  dislikedKeys : List String
  likedDates : String → Option Nat
  playedDates : String → Option Nat
  cutoff : Nat
  genreNameById : String → Option String

/-- `tooRecentlyLiked` (lines 2276–2280): `last && last > cutoff` — false when
the timestamp is absent or `0` (falsy). -/
def tooRecentlyLiked (env : FilterEnv) (t : Track) : Bool :=
  match env.likedDates (trackKey t) with
  | none => false
  | some last => decide (last ≠ 0) && decide (env.cutoff < last)

/-- `tooRecentlyPlayed` (lines 2281–2285). -/
def tooRecentlyPlayed (env : FilterEnv) (t : Track) : Bool :=
  match env.playedDates (trackKey t) with
  | none => false
  | some last => decide (last ≠ 0) && decide (env.cutoff < last)

/-- `matchesSelectedGenres` (lines 2287–2294). -/
def matchesSelectedGenres (env : FilterEnv) (t : Track) (ids : List String) : Bool :=
  if ids.isEmpty then true
  else
    let names := (ids.map (fun i => jsLower ((env.genreNameById i).getD ""))).filter
      (fun n => n ≠ "")
    if names.isEmpty then true
    else
      let gn := jsLower t.genreName
      if gn = "" then true
      else names.any (fun n => jsIncludes gn n)

/-- Stage 2 of `applyGlobalFilters` (lines 2300–2301): drop disliked tracks,
but only if at least 5 remain. -/
def dislikedStage (env : FilterEnv) (list : List Track) : List Track :=
  let withoutDisliked := list.filter (fun t => decide (trackKey t ∉ env.dislikedKeys))
  if 5 ≤ withoutDisliked.length then withoutDisliked else list

/-- Stage 3 of `applyGlobalFilters` (lines 2303–2304): drop recently liked
tracks, reverting when fewer than `PAGE * 0.6` remain.  With `PAGE = 20` the
JS float product `PAGE * 0.6` is exactly `12`, and `cooled.length < 12` is
written `10 * cooled.length < 6 * PAGE`. -/
def cooldownLikedStage (env : FilterEnv) (list : List Track) : List Track :=
  let cooled := list.filter (fun t => !(tooRecentlyLiked env t))
  if 10 * cooled.length < 6 * PAGE then list else cooled

/-- Stage 4 of `applyGlobalFilters` (lines 2306–2307): drop recently played
tracks, kept only when at least `Math.min(10, PAGE / 2)` remain. -/
def playedStage (env : FilterEnv) (cooled : List Track) : List Track :=
  let notPlayed := cooled.filter (fun t => !(tooRecentlyPlayed env t))
  if min 10 (PAGE / 2) ≤ notPlayed.length then notPlayed else cooled

/-- Stage 5 of `applyGlobalFilters` (lines 2309–2312): genre narrowing, kept
only when at least `Math.min(10, PAGE / 2)` survive. -/
def genreStage (env : FilterEnv) (ids : List String) (cooled : List Track) : List Track :=
  if ids.isEmpty then cooled
  else
    let tightened := cooled.filter (fun t => matchesSelectedGenres env t ids)
    if min 10 (PAGE / 2) ≤ tightened.length then tightened else cooled

/-- `applyGlobalFilters` (lines 2296–2314): karaoke removal, then the four
guarded stages in source order. -/
def applyGlobalFilters (env : FilterEnv) (arr : List Track) (idsForTighten : List String) :
    List Track :=
  genreStage env idsForTighten
    (playedStage env
      (cooldownLikedStage env
        (dislikedStage env
          (arr.filter (fun t => !(isKaraoke t))))))

theorem dislikedStage_floor (env : FilterEnv) (list : List Track)
    (h : 5 ≤ list.length) : 5 ≤ (dislikedStage env list).length := by
  simp only [dislikedStage]
  split_ifs with h1
  · exact h1
  · exact h

theorem cooldownLikedStage_floor (env : FilterEnv) (list : List Track)
    (h : 5 ≤ list.length) : 5 ≤ (cooldownLikedStage env list).length := by
  simp only [cooldownLikedStage, PAGE]
  split_ifs with h1
  · exact h
  · omega

theorem playedStage_floor (env : FilterEnv) (cooled : List Track)
    (h : 5 ≤ cooled.length) : 5 ≤ (playedStage env cooled).length := by
  simp only [playedStage, PAGE]
  split_ifs with h1
  · omega
  · exact h

theorem genreStage_floor (env : FilterEnv) (ids : List String) (cooled : List Track)
    (h : 5 ≤ cooled.length) : 5 ≤ (genreStage env ids cooled).length := by
  simp only [genreStage, PAGE]
  split_ifs with h1 h2
  · exact h
  · omega
  · exact h

end Core

/-- C2: whenever at least 5 tracks survive the karaoke-pattern removal stage,
`applyGlobalFilters` returns at least 5 tracks, for every preference/cooldown
environment and every requested genre list: each later stage either keeps at
least its own floor (5, 12, 10, 10 respectively) or is skipped. -/
theorem C2_filter_floor (env : Core.FilterEnv) (arr : List Core.Track)
    (ids : List String)
    (h : 5 ≤ (arr.filter (fun t => !(Core.isKaraoke t))).length) :
    5 ≤ (Core.applyGlobalFilters env arr ids).length :=
  Core.genreStage_floor env ids _
    (Core.playedStage_floor env _
      (Core.cooldownLikedStage_floor env _
        (Core.dislikedStage_floor env _ h)))

/-- A preference environment with nothing disliked, no timestamps, cutoff 0. -/
def envC2 : Core.FilterEnv :=
  ⟨[], fun _ => none, fun _ => none, 0, fun _ => none⟩

/-- Five plain tracks, none matching a karaoke pattern. -/
def arrC2 : List Core.Track :=
  [⟨"t1", "s1", "a1", "", "", "", "", ""⟩,
   ⟨"t2", "s2", "a2", "", "", "", "", ""⟩,
   ⟨"t3", "s3", "a3", "", "", "", "", ""⟩,
   ⟨"t4", "s4", "a4", "", "", "", "", ""⟩,
   ⟨"t5", "s5", "a5", "", "", "", "", ""⟩]

/-- Witness for C2: a concrete 5-track list surviving karaoke removal. -/
theorem C2_filter_floor_witness :
    5 ≤ (arrC2.filter (fun t => !(Core.isKaraoke t))).length
      ∧ 5 ≤ (Core.applyGlobalFilters envC2 arrC2 []).length :=
  ⟨by decide, C2_filter_floor envC2 arrC2 [] (by decide)⟩

/-- Environment for the C4 counterexample: track key "t6" was liked at time
100, inside the cooldown window (`cutoff = 50`). -/
def envC4 : Core.FilterEnv :=
  ⟨[], fun k => if k = "t6" then some 100 else none, fun _ => none, 50, fun _ => none⟩

/-- The too-recently-liked track of the C4 counterexample. -/
def trackC4 : Core.Track := ⟨"t6", "s6", "a6", "", "", "", "", ""⟩

/-- Six tracks, none karaoke, none disliked; only `trackC4` is inside the
liked-cooldown window. -/
def arrC4 : List Core.Track :=
  [⟨"t1", "s1", "a1", "", "", "", "", ""⟩,
   ⟨"t2", "s2", "a2", "", "", "", "", ""⟩,
   ⟨"t3", "s3", "a3", "", "", "", "", ""⟩,
   ⟨"t4", "s4", "a4", "", "", "", "", ""⟩,
   ⟨"t5", "s5", "a5", "", "", "", "", ""⟩,
   trackC4]

/-- C4 fails as stated: on `arrC4` the earlier stages change nothing (second
and third conjuncts), and the cooldown filter would retain 5 of the 6
pre-filter tracks — at least 60% of the pre-filter count (first conjunct), so
by the claim the stage must be applied and `trackC4` removed; but the code
compares against `PAGE * 0.6 = 12`, skips the stage, and `trackC4` (which is
too recently liked, fourth conjunct) survives into the output. -/
theorem C4_counterexample :
    6 * arrC4.length
        ≤ 10 * (arrC4.filter (fun t => !(Core.tooRecentlyLiked envC4 t))).length
      ∧ arrC4.filter (fun t => !(Core.isKaraoke t)) = arrC4
      ∧ Core.dislikedStage envC4 arrC4 = arrC4
      ∧ Core.tooRecentlyLiked envC4 trackC4 = true
      ∧ trackC4 ∈ Core.applyGlobalFilters envC4 arrC4 [] := by decide

/-- C4 (amended): in `applyGlobalFilters` the stage removing tracks liked
within the cooldown window is applied iff its result retains at least
`0.6 * PAGE` (= 12, a fixed page-size fraction — not 60% of that stage's
pre-filter count); otherwise the stage is skipped and the pre-filter list is
kept unchanged.  The last conjunct places the stage inside the pipeline. -/
theorem C4_cooldown_threshold (env : Core.FilterEnv) (list : List Core.Track) :
    (6 * Core.PAGE ≤ 10 * (list.filter (fun t => !(Core.tooRecentlyLiked env t))).length →
        Core.cooldownLikedStage env list
          = list.filter (fun t => !(Core.tooRecentlyLiked env t)))
      ∧ (10 * (list.filter (fun t => !(Core.tooRecentlyLiked env t))).length < 6 * Core.PAGE →
          Core.cooldownLikedStage env list = list)
      ∧ ∀ (arr : List Core.Track) (ids : List String),
          Core.applyGlobalFilters env arr ids
            = Core.genreStage env ids (Core.playedStage env
                (Core.cooldownLikedStage env (Core.dislikedStage env
                  (arr.filter (fun t => !(Core.isKaraoke t)))))) := by
  refine ⟨?_, ?_, fun arr ids => rfl⟩
  · intro h
    simp only [Core.cooldownLikedStage]
    rw [if_neg (by omega)]
  · intro h
    simp only [Core.cooldownLikedStage]
    rw [if_pos h]

/-- Witness for C4's amended theorem: on the counterexample data the filtered
list keeps 5 < 12 tracks, so the stage is skipped. -/
theorem C4_cooldown_threshold_witness :
    Core.cooldownLikedStage envC4 arrC4 = arrC4 :=
  (C4_cooldown_threshold envC4 arrC4).2.1 (by decide)

namespace Core

/-- `scoreTrackRelevance` (src/unnamed/part_000 lines 1576–1602), translated
statement by statement: normalize the query, return 0 for an empty query,
then accumulate the weighted field matches. -/
def scoreTrackRelevance (t : Track) (term : String) : Nat :=
  let q := jsTrim (jsLower term)
  if q = "" then 0
  else
    let tokens := jsTokens q
    let title := jsLower t.title
    let artist := jsLower t.artist
    let album := jsLower t.album
    let s0 : Nat := 0
    let s1 := if artist = q then s0 + 60 else s0
    let s2 := if jsIncludes artist q then s1 + 40 else s1
    let s3 := if jsStartsWith artist q then s2 + 50 else s2
    let s4 := if jsIncludes (title ++ " " ++ artist) q then s3 + 18 else s3
    let s5 := if jsIncludes album q then s4 + 14 else s4
    let s6 := tokens.foldl (fun s tok =>
      let u1 := if jsIncludes artist tok then s + 8 else s
      let u2 := if jsIncludes album tok then u1 + 6 else u1
      let u3 := if jsIncludes title tok then u2 + 5 else u2
      let u4 := if jsStartsWith artist tok then u3 + 4 else u3
      if jsStartsWith title tok then u4 + 3 else u4) s5
    let s7 := if t.previewUrl ≠ "" then s6 + 1 else s6
    if t.storeUrl ≠ "" then s7 + 1 else s7

/-- Per-token score contribution, as claimed by the specification (§4.9). -/
def tokenClaimScore (title artist album : String) (tok : String) : Nat :=
  (if jsIncludes artist tok then 8 else 0)
    + (if jsIncludes album tok then 6 else 0)
    + (if jsIncludes title tok then 5 else 0)
    + (if jsStartsWith artist tok then 4 else 0)
    + (if jsStartsWith title tok then 3 else 0)

/-- The relevance score exactly as the specification describes it: the plain
sum of all weighted match bonuses (no empty-query guard). -/
def relevanceClaimScore (t : Track) (term : String) : Nat :=
  let q := jsTrim (jsLower term)
  let title := jsLower t.title
  let artist := jsLower t.artist
  let album := jsLower t.album
  (if artist = q then 60 else 0)
    + (if jsIncludes artist q then 40 else 0)
    + (if jsStartsWith artist q then 50 else 0)
    + (if jsIncludes (title ++ " " ++ artist) q then 18 else 0)
    + (if jsIncludes album q then 14 else 0)
    + ((jsTokens q).map (tokenClaimScore title artist album)).sum
    + (if t.previewUrl ≠ "" then 1 else 0)
    + (if t.storeUrl ≠ "" then 1 else 0)

theorem foldl_add_sum (g : String → Nat) :
    ∀ (tokens : List String) (s : Nat),
      tokens.foldl (fun s tok => s + g tok) s = s + (tokens.map g).sum := by
  intro tokens
  induction tokens with
  | nil => intro s; simp
  | cons tok rest ih =>
    intro s
    simp [List.foldl_cons, ih, Nat.add_assoc]

theorem ite_add_shift (c : Prop) [Decidable c] (x k : Nat) :
    (if c then x + k else x) = x + (if c then k else 0) := by
  split_ifs <;> omega

theorem token_body_eq (title artist album : String) :
    (fun (s : Nat) (tok : String) =>
        ((((s + if jsIncludes artist tok then 8 else 0)
            + if jsIncludes album tok then 6 else 0)
            + if jsIncludes title tok then 5 else 0)
            + if jsStartsWith artist tok then 4 else 0)
            + if jsStartsWith title tok then 3 else 0)
      = fun (s : Nat) (tok : String) => s + tokenClaimScore title artist album tok := by
  funext s tok
  simp only [tokenClaimScore]
  omega

end Core

/-- C5 (amended: restricted to query terms that are nonempty after
lower-casing and trimming — for an empty query the code returns 0 without
scoring, see the counterexample): `scoreTrackRelevance` equals the sum of the
weighted match bonuses described by the specification, where all comparisons
are on the lower-cased fields and the lower-cased trimmed query. -/
theorem C5_score_is_claimed_sum (t : Core.Track) (term : String)
    (hq : jsTrim (jsLower term) ≠ "") :
    Core.scoreTrackRelevance t term = Core.relevanceClaimScore t term := by
  simp only [Core.scoreTrackRelevance, Core.relevanceClaimScore, if_neg hq,
    Core.ite_add_shift]
  rw [Core.token_body_eq, Core.foldl_add_sum]
  omega

/-- Witness for C5: a concrete nonempty query. -/
theorem C5_score_is_claimed_sum_witness :
    Core.scoreTrackRelevance ⟨"i1", "Song", "Drake", "Views", "", "p", "s", ""⟩ " Drake "
      = Core.relevanceClaimScore ⟨"i1", "Song", "Drake", "Views", "", "p", "s", ""⟩ " Drake " :=
  C5_score_is_claimed_sum ⟨"i1", "Song", "Drake", "Views", "", "p", "s", ""⟩ " Drake "
    (by decide)

/-- C5 fails as stated for every track and query term: on an empty query the
code short-circuits to 0, while the claimed sum still awards the
contains/starts-with bonuses (an empty needle is contained in everything),
here 40 + 50 + 18 + 14 = 122. -/
theorem C5_counterexample :
    Core.scoreTrackRelevance ⟨"i1", "t", "a", "b", "", "", "", ""⟩ "" = 0
      ∧ Core.relevanceClaimScore ⟨"i1", "t", "a", "b", "", "", "", ""⟩ "" = 122 := by decide

namespace Core

/-- A raw provider record as read by `normalizeTrack`
(src/unnamed/part_000 lines 1446–1459): each JS property is `none` when
nullish (absent/null/undefined).  The code reads the values as strings. -/
structure RawTrack where
  title : Option String
  trackName : Option String
  name : Option String
  artist : Option String
  artistName : Option String
  album : Option String
  collectionName : Option String
  trackId : Option String
  id : Option String
  artworkUrl100 : Option String
  albumArtUrl : Option String
  artwork : Option String
  previewUrl : Option String
  storeUrl : Option String
  trackViewUrl : Option String
  collectionViewUrl : Option String
  url : Option String
  primaryGenreName : Option String
  genre : Option String
  primaryGenre : Option String
  genreName : Option String
deriving DecidableEq

/-- JS `a ?? b` on a possibly-absent string: only nullish falls through. -/
def jsNullish (a : Option String) (b : String) : String := a.getD b

/-- JS `a || b`: `a` unless it is falsy (absent or the empty string). -/
def jsOr (a : Option String) (b : String) : String :=
  match a with
  | none => b
  | some s => if s = "" then b else s

/-- Case-insensitive character comparison (the artwork regexes carry `/i`). -/
def ciCharEq (a b : Char) : Bool := decide (a.toLower = b.toLower)

/-- Case-insensitive prefix test on character lists. -/
def ciPrefixOf : List Char → List Char → Bool
  | [], _ => true
  | _ :: _, [] => false
  | a :: as, b :: bs => ciCharEq a b && ciPrefixOf as bs

/-- Match `(?:jpg|jpeg|png)` case-insensitively at the head of `cs`, returning
the consumed source characters and the remainder; alternatives are tried left
to right as a backtracking regex engine does. -/
def extAt (cs : List Char) : Option (List Char × List Char) :=
  if ciPrefixOf "jpg".data cs then some (cs.take 3, cs.drop 3)
  else if ciPrefixOf "jpeg".data cs then some (cs.take 4, cs.drop 4)
  else if ciPrefixOf "png".data cs then some (cs.take 3, cs.drop 3)
  else none

/-- Try the tail of `/(\d{2,4})x\1([a-z]*\.(?:jpg|jpeg|png))/i` with a digit
group of exactly `k` digits at the head of `cs1` (the part after the `/`).
Returns the capture `$2` (`[a-z]*` run, the dot and the extension, with
original casing) together with the remainder after the whole match.  The
`[a-z]*` run is necessarily maximal since `.` is not a letter, and the
backreference `\1` must repeat the digit text exactly. -/
def pat1TryLen (k : Nat) (cs1 : List Char) : Option (List Char × List Char) :=
  let ds := cs1.take k
  if decide (ds.length = k) && ds.all Char.isDigit then
    match cs1.drop k with
    | x :: cs2 =>
      if ciCharEq x 'x' && decide (cs2.take k = ds) then
        let cs3 := cs2.drop k
        let letters := cs3.takeWhile Char.isAlpha
        match cs3.dropWhile Char.isAlpha with
        | '.' :: cs5 =>
          match extAt cs5 with
          | some (ext, rest) => some (letters ++ '.' :: ext, rest)
          | none => none
        | _ => none
      else none
    | [] => none
  else none

/-- Match the first artwork regex at the head of `cs`: greedy `\d{2,4}` tries
4, then 3, then 2 digits. -/
def pat1At : List Char → Option (List Char × List Char)
  | '/' :: cs1 =>
    match pat1TryLen 4 cs1 with
    | some r => some r
    | none =>
      match pat1TryLen 3 cs1 with
      | some r => some r
      | none => pat1TryLen 2 cs1
  | _ => none

/-- `url.replace(/\/(\d{2,4})x\1([a-z]*\.(?:jpg|jpeg|png))/i, "/600x600$2")`:
replace the leftmost match, or `none` when there is none. -/
def replacePat1 : List Char → Option (List Char)
  | [] => none
  | c :: cs =>
    match pat1At (c :: cs) with
    | some (g2, rest) => some ("/600x600".data ++ g2 ++ rest)
    | none =>
      match replacePat1 cs with
      | some out => some (c :: out)
      | none => none

/-- Try `(\d{2,4})x\1` with a digit group of exactly `k` digits at the head,
returning the remainder after the match. -/
def pat2TryLen (k : Nat) (cs : List Char) : Option (List Char) :=
  let ds := cs.take k
  if decide (ds.length = k) && ds.all Char.isDigit then
    match cs.drop k with
    | x :: cs2 =>
      if ciCharEq x 'x' && decide (cs2.take k = ds) then some (cs2.drop k) else none
    | [] => none
  else none

/-- Match the second artwork regex `(\d{2,4})x\1/i` at the head of `cs`. -/
def pat2At (cs : List Char) : Option (List Char) :=
  match pat2TryLen 4 cs with
  | some r => some r
  | none =>
    match pat2TryLen 3 cs with
    | some r => some r
    | none => pat2TryLen 2 cs

/-- `url.replace(/(\d{2,4})x\1/i, "600x600")`: replace the leftmost match
(identity when there is none). -/
def replacePat2 : List Char → List Char
  | [] => []
  | c :: cs =>
    match pat2At (c :: cs) with
    | some rest => "600x600".data ++ rest
    | none => c :: replacePat2 cs

/-- `upscaleArtwork` (src/unnamed/part_000 lines 1440–1445).  The JS compares
the first replacement result against the original with `!==`, so a match that
replaces text by itself still falls through to the second pattern. -/
def upscaleArtwork (url : String) : String :=
  if url = "" then ""
  else
    let out1 := match replacePat1 url.data with
      | some o => o
      | none => url.data
    if out1 ≠ url.data then (⟨out1⟩ : String) else ⟨replacePat2 url.data⟩

/-- `normalizeTrack` (src/unnamed/part_000 lines 1446–1459). -/
def normalizeTrack (t : RawTrack) : Track :=
  let title := jsNullish t.title (jsNullish t.trackName (jsNullish t.name "Unknown title"))
  let artist := jsNullish t.artist (jsNullish t.artistName "Unknown artist")
  let album := jsNullish t.album (jsNullish t.collectionName "Unknown album")
  let artworkCandidate := jsOr t.artworkUrl100 (jsOr t.albumArtUrl (jsOr t.artwork ""))
  { id := jsNullish t.trackId (jsNullish t.id (artist ++ "-" ++ title ++ "-" ++ album)),
    title := title,
    artist := artist,
    album := album,
    artwork := upscaleArtwork artworkCandidate,
    previewUrl := jsOr t.previewUrl "",
    storeUrl := jsOr t.storeUrl (jsOr t.trackViewUrl (jsOr t.collectionViewUrl (jsOr t.url ""))),
    genreName := jsOr t.primaryGenreName (jsOr t.genre (jsOr t.primaryGenre (jsOr t.genreName ""))) }

/-- The normalize-then-filter step used by `fetchSearchTracks` (line 1637) and
`fetchTracks` (line 1526): `.map(normalizeTrack).filter((t) => t.title && t.artist)`. -/
def normalizeAndFilter (l : List RawTrack) : List Track :=
  (l.map normalizeTrack).filter (fun t => t.title ≠ "" && t.artist ≠ "")

end Core

/-- A raw record with every field nullish. -/
def rawAllMissing : Core.RawTrack :=
  ⟨none, none, none, none, none, none, none, none, none, none, none,
   none, none, none, none, none, none, none, none, none, none⟩

/-- C7 fails as stated: a record in which every title alias and every artist
alias is missing is NOT filtered out — `??` substitutes the truthy defaults
"Unknown title" / "Unknown artist", so the record passes the
`t.title && t.artist` filter and is retained. -/
theorem C7_counterexample :
    Core.normalizeAndFilter [rawAllMissing]
      = [⟨"Unknown artist-Unknown title-Unknown album", "Unknown title",
          "Unknown artist", "Unknown album", "", "", "", ""⟩] := by decide

/-- C7 (amended): the normalize-then-filter step drops a record exactly when
its normalized title or artist is the empty string (which happens only when
the first non-nullish alias is empty); otherwise the normalized record is
retained.  In particular a record with all title and artist aliases missing
receives the defaults "Unknown title" / "Unknown artist" and is retained, not
filtered out.  Filtering is per record (last conjunct) and never an error. -/
theorem C7_normalize_filter (raw : Core.RawTrack) :
    ((Core.normalizeTrack raw).title = "" ∨ (Core.normalizeTrack raw).artist = ""
        ↔ Core.normalizeAndFilter [raw] = [])
      ∧ (Core.normalizeAndFilter [raw] = []
          ∨ Core.normalizeAndFilter [raw] = [Core.normalizeTrack raw])
      ∧ (raw.title = none ∧ raw.trackName = none ∧ raw.name = none
          ∧ raw.artist = none ∧ raw.artistName = none →
            (Core.normalizeTrack raw).title = "Unknown title"
            ∧ (Core.normalizeTrack raw).artist = "Unknown artist"
            ∧ Core.normalizeAndFilter [raw] = [Core.normalizeTrack raw])
      ∧ ∀ l : List Core.RawTrack,
          Core.normalizeAndFilter (raw :: l)
            = Core.normalizeAndFilter [raw] ++ Core.normalizeAndFilter l := by
  refine ⟨?_, ?_, ?_, ?_⟩
  · by_cases h1 : (Core.normalizeTrack raw).title = "" <;>
      by_cases h2 : (Core.normalizeTrack raw).artist = "" <;>
        simp [Core.normalizeAndFilter, List.filter_cons, h1, h2]
  · by_cases h1 : (Core.normalizeTrack raw).title = "" <;>
      by_cases h2 : (Core.normalizeTrack raw).artist = "" <;>
        simp [Core.normalizeAndFilter, List.filter_cons, h1, h2]
  · rintro ⟨h1, h2, h3, h4, h5⟩
    have ht : (Core.normalizeTrack raw).title = "Unknown title" := by
      simp [Core.normalizeTrack, Core.jsNullish, h1, h2, h3]
    have ha : (Core.normalizeTrack raw).artist = "Unknown artist" := by
      simp [Core.normalizeTrack, Core.jsNullish, h4, h5]
    refine ⟨ht, ha, ?_⟩
    simp [Core.normalizeAndFilter, List.filter_cons, ht, ha]
  · intro l
    simp only [Core.normalizeAndFilter, List.map_cons, List.filter_cons, List.map_nil,
      List.filter_nil]
    split <;> simp

/-- Witness for C7: the all-missing record gets the defaults and is kept. -/
theorem C7_normalize_filter_witness :
    (Core.normalizeTrack rawAllMissing).title = "Unknown title"
      ∧ (Core.normalizeTrack rawAllMissing).artist = "Unknown artist"
      ∧ Core.normalizeAndFilter [rawAllMissing] = [Core.normalizeTrack rawAllMissing] :=
  (C7_normalize_filter rawAllMissing).2.2.1 ⟨rfl, rfl, rfl, rfl, rfl⟩

namespace Core

/-- State initialisation of `rng` (src/unnamed/part_000 line 1437):
`let t = seed % 2147483647; if (t <= 0) t += 2147483646`.  JS `%` is the
sign-of-dividend remainder, i.e. `Int.tmod`. -/
def rngInit (seed : Int) : Int :=
  let t := Int.tmod seed 2147483647
  if t ≤ 0 then t + 2147483646 else t

/-- One step of the generator: `t = (t * 48271) % 2147483647`. -/
def rngStep (t : Int) : Int := Int.tmod (t * 48271) 2147483647

/-- The internal state after `n` draws. -/
def rngState (seed : Int) : Nat → Int
  | 0 => rngInit seed
  | n + 1 => rngStep (rngState seed n)

/-- The `n`-th emitted value (0-indexed): `rng` advances the state and then
divides, `(t = (t * 48271) % 2147483647) / 2147483647`.  The real-number
division is modelled exactly over `ℚ`. -/
def rngValue (seed : Int) (n : Nat) : ℚ := (rngState seed (n + 1) : ℚ) / 2147483647

theorem rngInit_range (seed : Int) (h : 0 ≤ seed) :
    1 ≤ rngInit seed ∧ rngInit seed ≤ 2147483646 := by
  simp only [rngInit]
  rw [Int.tmod_eq_emod h (by norm_num)]
  have h1 : 0 ≤ seed % 2147483647 := Int.emod_nonneg seed (by norm_num)
  have h2 : seed % 2147483647 < 2147483647 := Int.emod_lt_of_pos seed (by norm_num)
  split_ifs with h3 <;> omega

theorem rngStep_range (t : Int) (h1 : 1 ≤ t) (h2 : t ≤ 2147483646) :
    1 ≤ rngStep t ∧ rngStep t ≤ 2147483646 := by
  have h0 : (0 : Int) ≤ t * 48271 := by positivity
  simp only [rngStep]
  rw [Int.tmod_eq_emod h0 (by norm_num)]
  have hn : 0 ≤ t * 48271 % 2147483647 := Int.emod_nonneg _ (by norm_num)
  have hlt : t * 48271 % 2147483647 < 2147483647 := Int.emod_lt_of_pos _ (by norm_num)
  have hne : t * 48271 % 2147483647 ≠ 0 := by
    intro hz
    have hdvd : (2147483647 : Int) ∣ t * 48271 := Int.dvd_of_emod_eq_zero hz
    have hcop : IsCoprime (2147483647 : Int) 48271 := by
      rw [Int.isCoprime_iff_gcd_eq_one]
      decide
    have hdt : (2147483647 : Int) ∣ t := hcop.dvd_of_dvd_mul_right hdvd
    have := Int.le_of_dvd (by omega) hdt
    omega
  omega

theorem rngState_range (seed : Int) (h : 0 ≤ seed) :
    ∀ n, 1 ≤ rngState seed n ∧ rngState seed n ≤ 2147483646 := by
  intro n
  induction n with
  | zero => exact rngInit_range seed h
  | succ n ih => exact rngStep_range _ ih.1 ih.2

/-- Swap entries `i` and `j` of a list
(JS `[arr[i], arr[j]] = [arr[j], arr[i]]`); identity when an index is out of
range (which `shuffleInPlace` never produces). -/
def listSwap (l : List α) (i j : Nat) : List α :=
  match l[i]?, l[j]? with
  | some vi, some vj => (l.set i vj).set j vi
  | _, _ => l

/-- The Fisher–Yates loop of `shuffleInPlace` (src/unnamed/part_000
line 1438), loop index counting down to 1; the draw
`Math.floor(rand() * (i + 1))` is computed exactly:
`⌊(t / 2147483647) * (i + 1)⌋ = t * (i + 1) / 2147483647`. -/
def shuffleLoop : List α → Int → Nat → List α
  | a, _, 0 => a
  | a, t, i + 1 =>
    let t' := rngStep t
    let j := ((t' * ((i : Int) + 2)) / 2147483647).toNat
    shuffleLoop (listSwap a (i + 1) j) t' i

/-- `shuffleInPlace(arr, seed)` (src/unnamed/part_000 line 1438). -/
def shuffleInPlace (arr : List α) (seed : Int) : List α :=
  shuffleLoop arr (rngInit seed) (arr.length - 1)

theorem cons_set_perm :
    ∀ (xs : List α) (k : Nat) (vj x : α), xs[k]? = some vj →
      (vj :: xs.set k x).Perm (x :: xs)
  | [], k, vj, x, h => by simp at h
  | y :: t, 0, vj, x, h => by
    simp only [List.getElem?_cons_zero, Option.some.injEq] at h
    subst h
    simp only [List.set_cons_zero]
    exact List.Perm.swap x y t
  | y :: t, k + 1, vj, x, h => by
    simp only [List.getElem?_cons_succ] at h
    have ih := cons_set_perm t k vj x h
    have s1 : (vj :: y :: t.set k x).Perm (y :: vj :: t.set k x) := List.Perm.swap y vj _
    have s2 : (y :: vj :: t.set k x).Perm (y :: x :: t) := ih.cons y
    have s3 : (y :: x :: t).Perm (x :: y :: t) := List.Perm.swap x y t
    simp only [List.set_cons_succ]
    exact (s1.trans s2).trans s3

theorem listSwap_perm : ∀ (l : List α) (i j : Nat), (listSwap l i j).Perm l
  | [], i, j => by simp [listSwap]
  | x :: xs, 0, 0 => by simp [listSwap]
  | x :: xs, 0, k + 1 => by
    cases hj : xs[k]? with
    | none => simp [listSwap, hj]
    | some vj =>
      simp only [listSwap, List.getElem?_cons_zero, List.getElem?_cons_succ, hj,
        List.set_cons_zero, List.set_cons_succ]
      exact cons_set_perm xs k vj x hj
  | x :: xs, i + 1, 0 => by
    cases hi : xs[i]? with
    | none => simp [listSwap, hi]
    | some vi =>
      simp only [listSwap, List.getElem?_cons_zero, List.getElem?_cons_succ, hi,
        List.set_cons_zero, List.set_cons_succ]
      exact cons_set_perm xs i vi x hi
  | x :: xs, i + 1, k + 1 => by
    have ih := listSwap_perm xs i k
    cases hi : xs[i]? with
    | none => simp [listSwap, hi]
    | some vi =>
      cases hj : xs[k]? with
      | none => simp [listSwap, hi, hj]
      | some vj =>
        simp only [listSwap, List.getElem?_cons_succ, hi, hj, List.set_cons_succ] at ih ⊢
        exact ih.cons x

theorem shuffleLoop_perm : ∀ (i : Nat) (a : List α) (t : Int), (shuffleLoop a t i).Perm a
  | 0, a, t => by simp [shuffleLoop]
  | i + 1, a, t => by
    simp only [shuffleLoop]
    exact (shuffleLoop_perm i _ _).trans (listSwap_perm a (i + 1) _)

end Core

/-- C9: the PRNG follows the Lehmer recurrence with multiplier 48271 and
modulus `2^31 − 1`; for every seed in the contract's domain (unsigned
integers, `0 ≤ seed`) the initial state lies in `[1, 2^31 − 2]`, with seed 0
remapped to `2^31 − 2`; the emitted sequence is a function of the seed alone
(two generators with equal seeds emit equal sequences); and every emitted
value lies in `[0, 1)`. -/
theorem C9_rng_spec (seed : Int) (hseed : 0 ≤ seed) :
    (∀ t : Int, Core.rngStep t = Int.tmod (t * 48271) (2 ^ 31 - 1))
      ∧ (1 ≤ Core.rngInit seed ∧ Core.rngInit seed ≤ 2 ^ 31 - 2)
      ∧ Core.rngInit 0 = 2 ^ 31 - 2
      ∧ (∀ seed2 : Int, seed = seed2 → ∀ n, Core.rngValue seed n = Core.rngValue seed2 n)
      ∧ (∀ n, 0 ≤ Core.rngValue seed n ∧ Core.rngValue seed n < 1) := by
  refine ⟨fun t => by norm_num [Core.rngStep], ?_, by decide, fun seed2 h n => by rw [h], ?_⟩
  · have h := Core.rngInit_range seed hseed
    have h31 : (2 : Int) ^ 31 - 2 = 2147483646 := by norm_num
    rw [h31]
    exact h
  · intro n
    have hst := Core.rngState_range seed hseed (n + 1)
    have hv : Core.rngValue seed n = (Core.rngState seed (n + 1) : ℚ) / 2147483647 := rfl
    constructor
    · rw [hv]
      apply div_nonneg _ (by norm_num)
      have h0 : (0 : Int) ≤ Core.rngState seed (n + 1) := by omega
      exact_mod_cast h0
    · rw [hv, div_lt_one (by norm_num)]
      have hlt : Core.rngState seed (n + 1) < 2147483647 := by omega
      exact_mod_cast hlt

/-- Witness for C9 at seed 12345. -/
theorem C9_rng_spec_witness :
    (1 ≤ Core.rngInit 12345 ∧ Core.rngInit 12345 ≤ 2 ^ 31 - 2)
      ∧ (0 ≤ Core.rngValue 12345 0 ∧ Core.rngValue 12345 0 < 1) :=
  ⟨(C9_rng_spec 12345 (by norm_num)).2.1, (C9_rng_spec 12345 (by norm_num)).2.2.2.2 0⟩

/-- C10: for every input sequence and seed, `shuffleInPlace` returns a
permutation of its input (`List.Perm`: the same elements with the same
multiplicities), in particular of the same length. -/
theorem C10_shuffle_perm (α : Type) (arr : List α) (seed : Int) :
    (Core.shuffleInPlace arr seed).Perm arr
      ∧ (Core.shuffleInPlace arr seed).length = arr.length := by
  have h : (Core.shuffleInPlace arr seed).Perm arr := Core.shuffleLoop_perm _ arr _
  exact ⟨h, h.length_eq⟩

namespace Core

/-- Loop of part_000's `diversify` (lines 1460–1469): artist key trimmed only
(no lower-casing here), cap `PER_ARTIST_CAP`, window `ARTIST_COOLDOWN` over
the `recent` list of accepted artist keys, no target. -/
def diversifyGo : List Track → List Track → List String → (String → Nat) → List Track
  | [], out, _, _ => out
  | t :: rest, out, recent, counts =>
    let a := jsTrim t.artist
    if PER_ARTIST_CAP ≤ counts a then diversifyGo rest out recent counts
    else if a ∈ jsSliceLast recent ARTIST_COOLDOWN then diversifyGo rest out recent counts
    else diversifyGo rest (out ++ [t]) (recent ++ [a])
      (fun x => if x = a then counts a + 1 else counts x)

/-- part_000's `diversify(tracks)` (lines 1460–1469). -/
def diversify (tracks : List Track) : List Track := diversifyGo tracks [] [] (fun _ => 0)

/-- The JSON payload shapes distinguished by `fetchTracks` (lines 1519–1525). -/
inductive JsonShape where
  | withResults (results : List RawTrack)
  | withItems (items : List RawTrack)
  | bareArray (l : List RawTrack)
  | other
deriving DecidableEq

/-- `Array.isArray(data?.results) ? data.results : Array.isArray(data?.items)
? data.items : Array.isArray(data) ? data : []`. -/
def extractList : JsonShape → List RawTrack
  | .withResults l => l
  | .withItems l => l
  | .bareArray l => l
  | .other => []

/-- The track-search provider, as a pure oracle indexed by genre id and seed:
`.error` covers everything that makes `fetchTracks` throw (non-2xx response
or a rejected `res.json()`), `.ok` is the parsed payload. -/
structure Provider where
  search : Nat → Nat → Except String JsonShape

/-- `fetchTracks(genreId, seed)` (lines 1510–1528): a transport failure
propagates (the function throws); a payload is normalized, filtered
(`t.title && t.artist`), diversified, and shuffled with the same seed. -/
def fetchTracks (prov : Provider) (genreId seed : Nat) : Except String (List Track) :=
  match prov.search genreId seed with
  | .error e => .error e
  | .ok data =>
    let cleaned := diversify (normalizeAndFilter (extractList data))
    .ok (shuffleInPlace cleaned (seed : Int))

/-- `(perSeed ^ n ^ (i * 2654435761)) >>> 0`: JS XOR coerces each operand to
32 bits; the result of `>>> 0` is the unsigned bit pattern. -/
def xorSeed32 (perSeed n i : Nat) : Nat :=
  ((perSeed % 2 ^ 32) ^^^ (n % 2 ^ 32)) ^^^ ((i * 2654435761) % 2 ^ 32)

/-- A 32-bit bit pattern read back as a signed JS number (the result of `^`
without `>>> 0`, as in `perSeed ^ 0x9e3779b1` on line 1565). -/
def toInt32 (n : Nat) : Int :=
  let m : Nat := n % 2 ^ 32
  if m < 2 ^ 31 then (m : Int) else (m : Int) - 2 ^ 32

/-- The `seen`-set deduplication at the end of `fetchTracksForGenres`
(lines 1566–1571), keyed by `trackKey`, keeping first occurrences. -/
def dedupeGo : List Track → List String → List Track
  | [], _ => []
  | t :: rest, seen =>
    if trackKey t ∈ seen then dedupeGo rest seen
    else t :: dedupeGo rest (trackKey t :: seen)

/-- `const seen = new Set(); ... out.push(t)` dedupe pass. -/
def dedupeByKey (l : List Track) : List Track := dedupeGo l []

/-- `fetchTracksForGenres(genreIds, seed)` (lines 1531–1573).  `genreIds`
models the caller's array with `none` for null/undefined entries (removed by
the first filter).  A numeric id is fetched when
`Number.isFinite(n) && n >= 0` (finiteness always holds for mathematical
integers); a failing bucket degrades to `[]` (its `catch`).  When the id list
is empty, or every bucket is empty, the result is the default-genre
`fetchTracks` — whose failure, unlike bucket failures, propagates.  Otherwise
the non-empty buckets are round-robin interleaved, shuffled with
`perSeed ^ 0x9e3779b1`, and deduplicated. -/
def fetchTracksForGenres (prov : Provider) (genreIds : List (Option Int)) (seed : Nat) :
    Except String (List Track) :=
  let ids := genreIds.filterMap id
  if ids.length = 0 then fetchTracks prov GENRE_FALLBACK seed
  else
    let perSeed := seed
    let buckets := ids.enum.map (fun p =>
      if 0 ≤ p.2 then
        match fetchTracks prov p.2.toNat (xorSeed32 perSeed p.2.toNat p.1) with
        | .ok l => l
        | .error _ => []
      else [])
    let nonEmpty := buckets.filter (fun b => !b.isEmpty)
    if nonEmpty.length = 0 then fetchTracks prov GENRE_FALLBACK seed
    else
      let maxLen := (nonEmpty.map List.length).foldl max 0
      let mixed := (List.range maxLen).flatMap (fun i => nonEmpty.filterMap (fun b => b[i]?))
      let shuffled := shuffleInPlace mixed (toInt32 ((perSeed % 2 ^ 32) ^^^ 0x9e3779b1))
      .ok (dedupeByKey shuffled)

end Core

/-- A provider whose every request fails (e.g. the backend answers non-2xx). -/
def provFail : Core.Provider := ⟨fun _ _ => .error "HTTP 500"⟩

/-- C8 fails as stated: with an empty genre-id list `fetchTracksForGenres`
directly returns `fetchTracks(GENRE_FALLBACK, seed)`, which has no
`try`/`catch` around it — when the provider fails, the call throws instead of
degrading. -/
theorem C8_counterexample :
    Core.fetchTracksForGenres provFail [] 1 = Except.error "HTTP 500" := rfl

/-- C8 (amended): with an empty genre-id list `fetchTracksForGenres` performs
the single default-genre fetch and returns its result — including a
propagated failure (first conjunct); the same holds whenever every per-genre
bucket comes back empty (second conjunct, the bucket list written out as the
code computes it from the filtered ids, the per-index seeds and the
per-bucket `catch`).  Per-genre bucket failures themselves never propagate:
for every id list, success of the default-genre fetch implies success of the
whole call (third conjunct). -/
theorem C8_fetchForGenres_fallback (prov : Core.Provider)
    (genreIds : List (Option Int)) (seed : Nat) :
    Core.fetchTracksForGenres prov [] seed = Core.fetchTracks prov Core.GENRE_FALLBACK seed
      ∧ ((∀ b ∈ (genreIds.filterMap id).enum.map (fun p =>
            if 0 ≤ p.2 then
              match Core.fetchTracks prov p.2.toNat (Core.xorSeed32 seed p.2.toNat p.1) with
              | .ok l => l
              | .error _ => []
            else []), b = ([] : List Core.Track)) →
          Core.fetchTracksForGenres prov genreIds seed
            = Core.fetchTracks prov Core.GENRE_FALLBACK seed)
      ∧ ((Core.fetchTracks prov Core.GENRE_FALLBACK seed).isOk = true →
          (Core.fetchTracksForGenres prov genreIds seed).isOk = true) := by
  refine ⟨rfl, ?_, ?_⟩
  · intro hall
    simp only [Core.fetchTracksForGenres]
    split_ifs with h1 h2
    · rfl
    · rfl
    · exfalso
      apply h2
      rw [List.length_eq_zero]
      exact List.filter_eq_nil_iff.mpr (fun b hb => by rw [hall b hb]; decide)
  · intro h
    simp only [Core.fetchTracksForGenres]
    split_ifs with h1 h2
    · exact h
    · exact h
    · rfl

/-- A provider that always succeeds with an empty payload. -/
def provOk : Core.Provider := ⟨fun _ _ => .ok (Core.JsonShape.withItems [])⟩

/-- Witness for C8: a succeeding provider with an empty payload, with an
empty and a singleton genre list — the singleton list yields one empty
bucket, exercising the all-buckets-empty fallback. -/
theorem C8_fetchForGenres_fallback_witness :
    Core.fetchTracksForGenres provOk [] 7 = Core.fetchTracks provOk Core.GENRE_FALLBACK 7
      ∧ Core.fetchTracksForGenres provOk [some 14] 7
          = Core.fetchTracks provOk Core.GENRE_FALLBACK 7
      ∧ (Core.fetchTracksForGenres provOk [some 14] 7).isOk = true :=
  ⟨(C8_fetchForGenres_fallback provOk [] 7).1,
   (C8_fetchForGenres_fallback provOk [some 14] 7).2.1 (by decide),
   (C8_fetchForGenres_fallback provOk [some 14] 7).2.2 rfl⟩
